import Mathlib

/-!
Verification development for the AS5600 soft-wire Arduino driver
(src/src/AS5600_softwire.cpp).

The driver is a single class whose methods read and write 8-bit registers of
the AS5600 magnetic rotary sensor over a bit-banged two-wire bus.  We embed it
shallowly: the device is a register map (a function from register address to
byte) together with a log of bus events (one-byte reads, two-byte atomic reads,
one-byte writes, and settle delays).  Register reads do not change register
contents; writes update the map and append to the log.  The Arduino `word`
type is the 16-bit unsigned integer type, embedded as `Nat` with explicit
`% 256` truncation at the byte boundary of the bus (`sw.write` and `sw.read`
carry `uint8_t` values).
-/

set_option maxRecDepth 4000

namespace AS5600

/-- Modelled from the spec: the register map of spec.md section 6.  The numeric
addresses live in the header AS5600_softwire.h, which is not under src/; the
values below are the AS5600 datasheet addresses that the register map of the
spec refers to.  The claims depend only on which register pair each operation
touches, not on the particular numerals.  Burn-count (zmco) register address. -/
def addr_zmco : Nat := 0x00

/-- Modelled from the spec: start-position (zpos) register pair base address. -/
def addr_zpos : Nat := 0x01

/-- Modelled from the spec: end-position (mpos) register pair base address. -/
def addr_mpos : Nat := 0x03

/-- Modelled from the spec: max-angle (mang) register pair base address. -/
def addr_mang : Nat := 0x05

/-- Modelled from the spec: config register pair base address. -/
def addr_conf : Nat := 0x07

/-- Modelled from the spec: status register address (bits 5/4/3 = MD/ML/MH). -/
def addr_status : Nat := 0x0B

/-- Modelled from the spec: raw-angle register pair base address
(auto-increment-safe). -/
def addr_raw_angle : Nat := 0x0C

/-- Modelled from the spec: scaled-angle register pair base address
(auto-increment-safe). -/
def addr_angle : Nat := 0x0E

/-- Modelled from the spec: AGC register address. -/
def addr_agc : Nat := 0x1A

/-- Modelled from the spec: magnitude register pair base address
(auto-increment-safe). -/
def addr_magnitude : Nat := 0x1B

/-- Modelled from the spec: burn-command register address (write 0x80 to burn
angle positions, 0x40 to burn max-angle and config). -/
def addr_burn : Nat := 0xFF

/-- A bus event observable at the transport boundary:
`rd a v` is a one-byte read transaction at register `a` returning byte `v`;
`rd2 a hi lo` is a single two-byte read transaction at `a` returning `hi`
then `lo`; `wr a v` is a one-byte register write; `delayMs n` is a host
settle delay of `n` milliseconds (the `delay(2)` calls of the source). -/
inductive Ev where
  | rd : Nat → Nat → Ev
  | rd2 : Nat → Nat → Nat → Ev
  | wr : Nat → Nat → Ev
  | delayMs : Nat → Ev
deriving DecidableEq

/-- Device state: current register contents (one byte per address) plus the
log of bus events issued so far. -/
structure Device where
  regs : Nat → Nat
  log : List Ev

/-- The write events of a log, in order, as (address, byte) pairs. -/
def wrEvents : List Ev → List (Nat × Nat)
  | [] => []
  | Ev.wr a v :: es => (a, v) :: wrEvents es
  | _ :: es => wrEvents es

/-- The addresses of read transactions of a log, in order. -/
def rdEvents : List Ev → List Nat
  | [] => []
  | Ev.rd a _ :: es => a :: rdEvents es
  | Ev.rd2 a _ _ :: es => a :: rdEvents es
  | _ :: es => rdEvents es

/-- Arduino highByte macro: `(uint8_t)(w >> 8)`. -/
def highByte (w : Nat) : Nat := (w >>> 8) % 256

/-- Arduino lowByte macro: `(uint8_t)(w & 0xff)`. -/
def lowByte (w : Nat) : Nat := w % 256

/-- AMS_5600_SOFTWIRE::readOneByte: address-pointer write then a one-byte read
transaction; the bus delivers a single byte (hence the `% 256`). -/
def readOneByte (d : Device) (a : Nat) : Nat × Device :=
  let v := d.regs a % 256
  (v, { regs := d.regs, log := d.log ++ [Ev.rd a v] })

/-- AMS_5600_SOFTWIRE::readTwoBytesTogether: one two-byte read transaction;
the first byte received is the high byte; returns `(highByte << 8) | lowByte`. -/
def readTwoBytesTogether (d : Device) (a : Nat) : Nat × Device :=
  let hi := d.regs a % 256
  let lo := d.regs (a + 1) % 256
  ((hi <<< 8) ||| lo, { regs := d.regs, log := d.log ++ [Ev.rd2 a hi lo] })

/-- AMS_5600_SOFTWIRE::readTwoBytesSeparately: two independent one-byte reads
at `a` and `a+1`; returns `(highByte << 8) | lowByte`. -/
def readTwoBytesSeparately (d : Device) (a : Nat) : Nat × Device :=
  let hi := (readOneByte d a).1
  let d1 := (readOneByte d a).2
  let lo := (readOneByte d1 (a + 1)).1
  let d2 := (readOneByte d1 (a + 1)).2
  ((hi <<< 8) ||| lo, d2)

/-- AMS_5600_SOFTWIRE::writeOneByte: a write transaction carrying the register
address then the data byte (`sw.write` takes `uint8_t`, hence `% 256`). -/
def writeOneByte (d : Device) (a v : Nat) : Device :=
  { regs := fun x => if x = a then v % 256 else d.regs x,
    log := d.log ++ [Ev.wr a (v % 256)] }

/-- The host `delay(ms)` call, logged as a settle-delay event. -/
def delay (d : Device) (ms : Nat) : Device :=
  { regs := d.regs, log := d.log ++ [Ev.delayMs ms] }

/-- AMS_5600_SOFTWIRE::getRawAngle. -/
def getRawAngle (d : Device) : Nat × Device :=
  readTwoBytesTogether d addr_raw_angle

/-- AMS_5600_SOFTWIRE::getScaledAngle. -/
def getScaledAngle (d : Device) : Nat × Device :=
  readTwoBytesTogether d addr_angle

/-- AMS_5600_SOFTWIRE::getMagnitude. -/
def getMagnitude (d : Device) : Nat × Device :=
  readTwoBytesTogether d addr_magnitude

/-- AMS_5600_SOFTWIRE::getAgc. -/
def getAgc (d : Device) : Nat × Device :=
  readOneByte d addr_agc

/-- AMS_5600_SOFTWIRE::getStartPosition. -/
def getStartPosition (d : Device) : Nat × Device :=
  readTwoBytesSeparately d addr_zpos

/-- AMS_5600_SOFTWIRE::getEndPosition. -/
def getEndPosition (d : Device) : Nat × Device :=
  readTwoBytesSeparately d addr_mpos

/-- AMS_5600_SOFTWIRE::getMaxAngle. -/
def getMaxAngle (d : Device) : Nat × Device :=
  readTwoBytesSeparately d addr_mang

/-- AMS_5600_SOFTWIRE::getConf. -/
def getConf (d : Device) : Nat × Device :=
  readTwoBytesSeparately d addr_conf

/-- AMS_5600_SOFTWIRE::getBurnCount: one-byte read of the zmco register. -/
def getBurnCount (d : Device) : Nat × Device :=
  readOneByte d addr_zmco

/-- AMS_5600_SOFTWIRE::detectMagnet: `return (magStatus & 0x20) ? 1 : 0`. -/
def detectMagnet (d : Device) : Nat × Device :=
  let s := (readOneByte d addr_status).1
  let d1 := (readOneByte d addr_status).2
  (if s &&& 0x20 ≠ 0 then 1 else 0, d1)

/-- AMS_5600_SOFTWIRE::getMagnetStrength: 0 = no magnet; when MD (bit 5) is
set: 1 if ML (bit 4) set, else 3 if MH (bit 3) set, else 2. -/
def getMagnetStrength (d : Device) : Nat × Device :=
  let s := (readOneByte d addr_status).1
  let d1 := (readOneByte d addr_status).2
  (if s &&& 0x20 ≠ 0 then
     if s &&& 0x10 ≠ 0 then 1
     else if s &&& 0x08 ≠ 0 then 3
     else 2
   else 0, d1)

/-- AMS_5600_SOFTWIRE::setOutPut: read the config low byte, clear bits 5:4,
set them to 10 for mode 0 (digital PWM), to 01 for mode 2 (reduced-range
analog), leave 00 otherwise, and write the byte back. -/
def setOutPut (d : Device) (mode : Nat) : Device :=
  let cs := (readOneByte d (addr_conf + 1)).1
  let d1 := (readOneByte d (addr_conf + 1)).2
  let cs1 := cs &&& 0b11001111
  let cs2 := if mode = 0 then cs1 ||| 0b100000
             else if mode = 2 then cs1 ||| 0b010000
             else cs1
  writeOneByte d1 (addr_conf + 1) cs2

/-- AMS_5600_SOFTWIRE::setMaxAngle.  `word` is 16-bit, so the
`newMaxAngle == -1` sentinel test of the source is `newMaxAngle == 0xFFFF`.
Writes high byte, settle delay, low byte, settle delay, then reads the pair
back and returns the read-back value. -/
def setMaxAngle (d : Device) (newMaxAngle : Nat) : Nat × Device :=
  let m := if newMaxAngle = 0xFFFF then (getRawAngle d).1 else newMaxAngle
  let d0 := if newMaxAngle = 0xFFFF then (getRawAngle d).2 else d
  let d1 := writeOneByte d0 addr_mang (highByte m)
  let d2 := delay d1 2
  let d3 := writeOneByte d2 (addr_mang + 1) (lowByte m)
  let d4 := delay d3 2
  readTwoBytesSeparately d4 addr_mang

/-- AMS_5600_SOFTWIRE::setStartPosition (same pattern as setMaxAngle, on the
zpos pair). -/
def setStartPosition (d : Device) (startAngle : Nat) : Nat × Device :=
  let m := if startAngle = 0xFFFF then (getRawAngle d).1 else startAngle
  let d0 := if startAngle = 0xFFFF then (getRawAngle d).2 else d
  let d1 := writeOneByte d0 addr_zpos (highByte m)
  let d2 := delay d1 2
  let d3 := writeOneByte d2 (addr_zpos + 1) (lowByte m)
  let d4 := delay d3 2
  readTwoBytesSeparately d4 addr_zpos

/-- AMS_5600_SOFTWIRE::setEndPosition (same pattern as setMaxAngle, on the
mpos pair). -/
def setEndPosition (d : Device) (endAngle : Nat) : Nat × Device :=
  let m := if endAngle = 0xFFFF then (getRawAngle d).1 else endAngle
  let d0 := if endAngle = 0xFFFF then (getRawAngle d).2 else d
  let d1 := writeOneByte d0 addr_mpos (highByte m)
  let d2 := delay d1 2
  let d3 := writeOneByte d2 (addr_mpos + 1) (lowByte m)
  let d4 := delay d3 2
  readTwoBytesSeparately d4 addr_mpos

/-- AMS_5600_SOFTWIRE::setConf: writes high byte, settle delay, low byte,
settle delay.  The source returns void: there is no read-back. -/
def setConf (d : Device) (conf : Nat) : Device :=
  let d1 := writeOneByte d addr_conf (highByte conf)
  let d2 := delay d1 2
  let d3 := writeOneByte d2 (addr_conf + 1) (lowByte conf)
  delay d3 2

/-- AMS_5600_SOFTWIRE::burnAngle: reads zpos, mpos, mang (the mang value is
unused by the source), then gates on magnet detection, burn count < 3 and
non-zero positions before writing 0x80 to the burn register.
Returns 1 success, -1 no magnet, -2 burn limit exceeded, -3 nothing to burn. -/
def burnAngle (d : Device) : Int × Device :=
  let z := (getStartPosition d).1
  let d1 := (getStartPosition d).2
  let m := (getEndPosition d1).1
  let d2 := (getEndPosition d1).2
  let d3 := (getMaxAngle d2).2
  let md := (detectMagnet d3).1
  let d4 := (detectMagnet d3).2
  if md = 1 then
    let bc := (getBurnCount d4).1
    let d5 := (getBurnCount d4).2
    if bc < 3 then
      if z = 0 ∧ m = 0 then (-3, d5)
      else (1, writeOneByte d5 addr_burn 0x80)
    else (-2, d5)
  else (-1, d4)

/-- AMS_5600_SOFTWIRE::burnMaxAngleAndConfig: reads mang and zmco; if the burn
count is exactly 0 and the max angle passes the 18-degree threshold, writes
0x40 to the burn register.  Returns 1 success, -1 burn limit exceeded,
-2 max angle too small.  The guard of the source is the C double comparison
`_maxAngle * 0.087 < 18`; for every 16-bit `_maxAngle` this agrees with the
exact comparison `_maxAngle * 87 < 18000`, which is how we embed it: the
nearest double to 0.087 is within 7e-18 of it, so the computed product is
within 1e-12 of the real product, while the closest the real product gets to
18 over 16-bit inputs is |207 * 0.087 - 18| = 0.009. -/
def burnMaxAngleAndConfig (d : Device) : Int × Device :=
  let ma := (getMaxAngle d).1
  let d1 := (getMaxAngle d).2
  let bc := (getBurnCount d1).1
  let d2 := (getBurnCount d1).2
  if bc = 0 then
    if ma * 87 < 18000 then (-2, d2)
    else (1, writeOneByte d2 addr_burn 0x40)
  else (-1, d2)

/-- Transaction-indexed read model, used to state the stability claim about
the two read paths: `tr t a` is the byte the device would serve for register
`a` during bus transaction number `t` (the register file may change between
transactions while the magnet moves).  One-byte read as a single transaction. -/
def readOneByteAt (tr : Nat → Nat → Nat) (t a : Nat) : Nat :=
  tr t a % 256

/-- readTwoBytesTogether in the transaction-indexed model: both bytes come
from the same transaction `t`. -/
def readTwoBytesTogetherAt (tr : Nat → Nat → Nat) (t a : Nat) : Nat :=
  ((tr t a % 256) <<< 8) ||| (tr t (a + 1) % 256)

/-- readTwoBytesSeparately in the transaction-indexed model: the high byte
comes from transaction `t`, the low byte from the next transaction `t+1`. -/
def readTwoBytesSeparatelyAt (tr : Nat → Nat → Nat) (t a : Nat) : Nat :=
  ((readOneByteAt tr t a) <<< 8) ||| readOneByteAt tr (t + 1) (a + 1)

/-- Observable bus trace of one committed pair write with read-back: high
byte write, settle delay, low byte write, settle delay, then the two
read-back transactions returning the bytes just written. -/
def setPairTrace (base m : Nat) : List Ev :=
  [Ev.wr base (highByte m), Ev.delayMs 2, Ev.wr (base + 1) (lowByte m), Ev.delayMs 2,
   Ev.rd base (highByte m), Ev.rd (base + 1) (lowByte m)]

/-- The config low byte written back by setOutPut, as a function of the prior
low byte `l` and the requested mode. -/
def outModeByte (l mode : Nat) : Nat :=
  (l &&& 0b11001111) ||| (if mode = 0 then 0b100000 else if mode = 2 then 0b010000 else 0)

/-- A device with all registers zero and an empty log. -/
def devFlat : Device := ⟨fun _ => 0, []⟩

/-- A device with magnet detected, start position 5, burn count 0. -/
def devBurnOK : Device :=
  ⟨fun a => if a = addr_status then 0x20 else if a = addr_zpos + 1 then 5 else 0, []⟩

/-- A device with max angle 207 (the smallest raw value at or above the
18-degree threshold), burn count 0, and no magnet detected. -/
def devMang207 : Device :=
  ⟨fun a => if a = addr_mang + 1 then 207 else 0, []⟩

/-- A device whose burn count is already 3. -/
def devBurned : Device :=
  ⟨fun a => if a = addr_zmco then 3 else 0, []⟩

/-- A device whose status byte has MD and ML set (magnet detected, too weak). -/
def devStatus30 : Device :=
  ⟨fun a => if a = addr_status then 0b00110000 else 0, []⟩

/-- Device of the C6 scenario: raw-angle register pair holds 0x0A then 0x3C. -/
def devRaw0A3C : Device :=
  ⟨fun a => if a = addr_raw_angle then 0x0A else if a = addr_raw_angle + 1 then 0x3C else 0, []⟩

/-- Device of the C8 scenario: config low byte 0b00101111. -/
def devConf2F : Device :=
  ⟨fun a => if a = addr_conf + 1 then 0b00101111 else 0, []⟩

/-- wrEvents distributes over list append. -/
theorem wrEvents_append (xs ys : List Ev) :
    wrEvents (xs ++ ys) = wrEvents xs ++ wrEvents ys := by
  induction xs with
  | nil => rfl
  | cons e es ih =>
    cases e <;> simp [wrEvents, ih]

/-- rdEvents distributes over list append. -/
theorem rdEvents_append (xs ys : List Ev) :
    rdEvents (xs ++ ys) = rdEvents xs ++ rdEvents ys := by
  induction xs with
  | nil => rfl
  | cons e es ih =>
    cases e <;> simp [rdEvents, ih]

/-- Concatenating a high byte and a low byte by shift-or equals the usual
base-256 composition. -/
theorem byte_concat (hi lo : Nat) (h : lo < 256) : ((hi <<< 8) ||| lo) = 256 * hi + lo := by
  have h256 : 256 * hi + lo = 2 ^ 8 * hi + lo := by norm_num
  rw [h256]
  apply Nat.eq_of_testBit_eq
  intro i
  rw [Nat.testBit_mul_pow_two_add hi (by simpa using h) i]
  simp only [Nat.testBit_or, Nat.testBit_shiftLeft]
  by_cases hi8 : i < 8
  · simp [hi8, Nat.not_le.mpr hi8]
  · have hle : (256 : ℕ) ≤ 2 ^ i := by
      calc (256 : ℕ) = 2 ^ 8 := by norm_num
      _ ≤ 2 ^ i := Nat.pow_le_pow_right (by norm_num) (Nat.not_lt.mp hi8)
    have hbit : lo.testBit i = false := Nat.testBit_lt_two_pow (lt_of_lt_of_le h hle)
    simp [hi8, hbit, Nat.not_lt.mp hi8]

/-- Recomposing the two bytes of a 16-bit value gives the value back. -/
theorem highlow_concat (v : Nat) (h : v < 65536) : ((highByte v <<< 8) ||| lowByte v) = v := by
  have hlo : lowByte v < 256 := Nat.mod_lt _ (by norm_num)
  rw [byte_concat (highByte v) (lowByte v) hlo]
  simp only [highByte, lowByte, Nat.shiftRight_eq_div_pow]
  have h2 : v / 2 ^ 8 < 256 := by omega
  rw [Nat.mod_eq_of_lt h2]
  omega

/-- The write events of setPairTrace are the two byte writes. -/
theorem wrEvents_setPairTrace (base m : Nat) :
    wrEvents (setPairTrace base m) = [(base, highByte m), (base + 1, lowByte m)] := by
  simp [setPairTrace, wrEvents]

/-- The real-number threshold of the spec, `X * 0.087 < 18`, agrees with the
integer comparison `X * 87 < 18000` used in the embedding. -/
theorem maxAngle_rat_threshold (X : ℕ) : ((X : ℚ) * 0.087 < 18 ↔ X * 87 < 18000) := by
  constructor
  · intro h
    by_contra hc
    push_neg at hc
    have h2 : (18000 : ℚ) ≤ (X : ℚ) * 87 := by exact_mod_cast hc
    nlinarith
  · intro h
    have h2 : ((X : ℚ) * 87 < 18000) := by exact_mod_cast h
    nlinarith

/-- setMaxAngle on a non-sentinel argument: bus trace and returned value. -/
theorem setMaxAngle_trace (d : Device) (v : Nat) (hv : v ≠ 0xFFFF) :
    (setMaxAngle d v).2.log = d.log ++ setPairTrace addr_mang v ∧
    (setMaxAngle d v).1 = (highByte v <<< 8) ||| lowByte v := by
  constructor <;>
  simp [setMaxAngle, setPairTrace, writeOneByte, delay, readTwoBytesSeparately, readOneByte,
    highByte, lowByte, addr_mang, hv]

/-- setStartPosition on a non-sentinel argument: bus trace and returned value. -/
theorem setStartPosition_trace (d : Device) (v : Nat) (hv : v ≠ 0xFFFF) :
    (setStartPosition d v).2.log = d.log ++ setPairTrace addr_zpos v ∧
    (setStartPosition d v).1 = (highByte v <<< 8) ||| lowByte v := by
  constructor <;>
  simp [setStartPosition, setPairTrace, writeOneByte, delay, readTwoBytesSeparately, readOneByte,
    highByte, lowByte, addr_zpos, hv]

/-- setEndPosition on a non-sentinel argument: bus trace and returned value. -/
theorem setEndPosition_trace (d : Device) (v : Nat) (hv : v ≠ 0xFFFF) :
    (setEndPosition d v).2.log = d.log ++ setPairTrace addr_mpos v ∧
    (setEndPosition d v).1 = (highByte v <<< 8) ||| lowByte v := by
  constructor <;>
  simp [setEndPosition, setPairTrace, writeOneByte, delay, readTwoBytesSeparately, readOneByte,
    highByte, lowByte, addr_mpos, hv]

/-- setConf bus trace: two writes with settle delays and nothing else. -/
theorem setConf_trace (d : Device) (v : Nat) :
    (setConf d v).log = d.log ++
      [Ev.wr addr_conf (highByte v), Ev.delayMs 2,
       Ev.wr (addr_conf + 1) (lowByte v), Ev.delayMs 2] := by
  simp [setConf, writeOneByte, delay, highByte, lowByte, addr_conf]

/-- setMaxAngle on the sentinel: captures the raw angle, then the pair-write
trace for it. -/
theorem setMaxAngle_sentinel_trace (d : Device) :
    (setMaxAngle d 0xFFFF).2.log = d.log ++
      [Ev.rd2 addr_raw_angle (d.regs addr_raw_angle % 256) (d.regs (addr_raw_angle + 1) % 256)] ++
      setPairTrace addr_mang (getRawAngle d).1 ∧
    (setMaxAngle d 0xFFFF).1 =
      (highByte (getRawAngle d).1 <<< 8) ||| lowByte (getRawAngle d).1 := by
  constructor <;>
  simp [setMaxAngle, getRawAngle, readTwoBytesTogether, setPairTrace, writeOneByte, delay,
    readTwoBytesSeparately, readOneByte, highByte, lowByte, addr_mang, addr_raw_angle]

/-- setStartPosition on the sentinel: captures the raw angle, then the
pair-write trace for it. -/
theorem setStartPosition_sentinel_trace (d : Device) :
    (setStartPosition d 0xFFFF).2.log = d.log ++
      [Ev.rd2 addr_raw_angle (d.regs addr_raw_angle % 256) (d.regs (addr_raw_angle + 1) % 256)] ++
      setPairTrace addr_zpos (getRawAngle d).1 ∧
    (setStartPosition d 0xFFFF).1 =
      (highByte (getRawAngle d).1 <<< 8) ||| lowByte (getRawAngle d).1 := by
  constructor <;>
  simp [setStartPosition, getRawAngle, readTwoBytesTogether, setPairTrace, writeOneByte, delay,
    readTwoBytesSeparately, readOneByte, highByte, lowByte, addr_zpos, addr_raw_angle]

/-- setEndPosition on the sentinel: captures the raw angle, then the
pair-write trace for it. -/
theorem setEndPosition_sentinel_trace (d : Device) :
    (setEndPosition d 0xFFFF).2.log = d.log ++
      [Ev.rd2 addr_raw_angle (d.regs addr_raw_angle % 256) (d.regs (addr_raw_angle + 1) % 256)] ++
      setPairTrace addr_mpos (getRawAngle d).1 ∧
    (setEndPosition d 0xFFFF).1 =
      (highByte (getRawAngle d).1 <<< 8) ||| lowByte (getRawAngle d).1 := by
  constructor <;>
  simp [setEndPosition, getRawAngle, readTwoBytesTogether, setPairTrace, writeOneByte, delay,
    readTwoBytesSeparately, readOneByte, highByte, lowByte, addr_mpos, addr_raw_angle]

/-- The byte written back by setOutPut is still a byte. -/
theorem outModeByte_lt (l mode : Nat) : outModeByte l mode < 256 := by
  have h1 : l &&& 0b11001111 < 256 := lt_of_le_of_lt Nat.and_le_right (by norm_num)
  have h2 : (if mode = 0 then 0b100000 else if mode = 2 then 0b010000 else 0 : Nat) < 256 := by
    split
    · norm_num
    · split <;> norm_num
  have h3 := Nat.or_lt_two_pow (x := l &&& 0b11001111)
    (y := if mode = 0 then 0b100000 else if mode = 2 then 0b010000 else 0) (n := 8)
  simp only [outModeByte]
  exact h3 (by simpa using h1) (by simpa using h2)

/-- C1: burnAngle returns -1 (NoMagnet) whenever the magnet is not detected,
regardless of burn count or positions, writing nothing; with magnet detected
it returns -2 (BurnLimitExceeded) when the burn count is at least 3, writing
nothing; with burn count below 3 it returns -3 (NothingToBurn) when both the
start and the end position read back as 0, writing nothing; otherwise it
writes the angle-burn command byte 0x80 to the burn register and returns 1. -/
theorem burnAngle_guards (d : Device) :
    ((detectMagnet d).1 = 0 →
        (burnAngle d).1 = -1 ∧ wrEvents (burnAngle d).2.log = wrEvents d.log) ∧
    ((detectMagnet d).1 = 1 → 3 ≤ (getBurnCount d).1 →
        (burnAngle d).1 = -2 ∧ wrEvents (burnAngle d).2.log = wrEvents d.log) ∧
    ((detectMagnet d).1 = 1 → (getBurnCount d).1 < 3 →
        (getStartPosition d).1 = 0 → (getEndPosition d).1 = 0 →
        (burnAngle d).1 = -3 ∧ wrEvents (burnAngle d).2.log = wrEvents d.log) ∧
    ((detectMagnet d).1 = 1 → (getBurnCount d).1 < 3 →
        ¬ ((getStartPosition d).1 = 0 ∧ (getEndPosition d).1 = 0) →
        (burnAngle d).1 = 1 ∧
        wrEvents (burnAngle d).2.log = wrEvents d.log ++ [(addr_burn, 0x80)]) := by
  by_cases hmd : d.regs addr_status % 256 &&& 0x20 = 0 <;>
  by_cases hbc : d.regs addr_zmco % 256 < 3 <;>
  by_cases hz : ((d.regs addr_zpos % 256) <<< 8) ||| (d.regs (addr_zpos + 1) % 256) = 0 <;>
  by_cases hm : ((d.regs addr_mpos % 256) <<< 8) ||| (d.regs (addr_mpos + 1) % 256) = 0 <;>
  simp [burnAngle, detectMagnet, getBurnCount, getStartPosition, getEndPosition, getMaxAngle,
    readOneByte, readTwoBytesSeparately, writeOneByte, wrEvents_append, wrEvents,
    hmd, hbc, hz, hm, Nat.not_lt]

/-- C1 witness: on devBurnOK (magnet detected, burn count 0, start position 5)
burnAngle succeeds and writes 0x80 to the burn register. -/
theorem burnAngle_guards_witness :
    (burnAngle devBurnOK).1 = 1 ∧
    wrEvents (burnAngle devBurnOK).2.log = wrEvents devBurnOK.log ++ [(addr_burn, 0x80)] :=
  (burnAngle_guards devBurnOK).2.2.2 (by decide) (by decide) (by decide)

/-- C2: with burn count 0, burnMaxAngleAndConfig returns -2 (MaxAngleTooSmall)
for every max-angle raw value X with X * 0.087 below 18 degrees, writing
nothing, and for every X at or above the threshold (boundary included) it
writes the config-burn command byte 0x40 to the burn register and returns 1.
The first conjunct certifies that the real-number threshold of the claim is
the integer comparison used in the other conjuncts. -/
theorem burnMaxAngleAndConfig_threshold (d : Device) (h0 : (getBurnCount d).1 = 0) :
    (∀ X : ℕ, ((X : ℚ) * 0.087 < 18 ↔ X * 87 < 18000)) ∧
    ((getMaxAngle d).1 * 87 < 18000 →
        (burnMaxAngleAndConfig d).1 = -2 ∧
        wrEvents (burnMaxAngleAndConfig d).2.log = wrEvents d.log) ∧
    (18000 ≤ (getMaxAngle d).1 * 87 →
        (burnMaxAngleAndConfig d).1 = 1 ∧
        wrEvents (burnMaxAngleAndConfig d).2.log = wrEvents d.log ++ [(addr_burn, 0x40)]) := by
  refine ⟨maxAngle_rat_threshold, ?_, ?_⟩
  · intro h
    simp only [getBurnCount, getMaxAngle, readOneByte, readTwoBytesSeparately] at h0 h
    simp [burnMaxAngleAndConfig, getBurnCount, getMaxAngle, readOneByte, readTwoBytesSeparately,
      writeOneByte, wrEvents_append, wrEvents, h0, h]
  · intro h
    have h2 : ¬ ((getMaxAngle d).1 * 87 < 18000) := Nat.not_lt.mpr h
    simp only [getBurnCount, getMaxAngle, readOneByte, readTwoBytesSeparately] at h0 h2
    simp [burnMaxAngleAndConfig, getBurnCount, getMaxAngle, readOneByte, readTwoBytesSeparately,
      writeOneByte, wrEvents_append, wrEvents, h0, h2]

/-- C2 witness: on devMang207 (max angle 207, the boundary value, burn count
0) burnMaxAngleAndConfig succeeds and writes 0x40 to the burn register. -/
theorem burnMaxAngleAndConfig_threshold_witness :
    (burnMaxAngleAndConfig devMang207).1 = 1 ∧
    wrEvents (burnMaxAngleAndConfig devMang207).2.log =
      wrEvents devMang207.log ++ [(addr_burn, 0x40)] :=
  (burnMaxAngleAndConfig_threshold devMang207 (by decide)).2.2 (by decide)

/-- C3: burnMaxAngleAndConfig returns -1 (BurnLimitExceeded) whenever the burn
count is not 0, regardless of the max-angle value, and writes nothing (in
particular nothing to the burn register). -/
theorem burnMaxAngleAndConfig_burnLimit (d : Device) (h : (getBurnCount d).1 ≠ 0) :
    (burnMaxAngleAndConfig d).1 = -1 ∧
    wrEvents (burnMaxAngleAndConfig d).2.log = wrEvents d.log := by
  simp only [getBurnCount, readOneByte] at h
  simp [burnMaxAngleAndConfig, getBurnCount, getMaxAngle, readOneByte, readTwoBytesSeparately,
    wrEvents_append, wrEvents, h]

/-- C3 witness: on devBurned (burn count 3) burnMaxAngleAndConfig returns -1
and writes nothing. -/
theorem burnMaxAngleAndConfig_burnLimit_witness :
    (burnMaxAngleAndConfig devBurned).1 = -1 ∧
    wrEvents (burnMaxAngleAndConfig devBurned).2.log = wrEvents devBurned.log :=
  burnMaxAngleAndConfig_burnLimit devBurned (by decide)

/-- C4: getMagnetStrength returns 0 (none) exactly when bit 5 (MD) of the
status byte is unset, which is exactly when detectMagnet returns 0; when MD
is set it returns 1 (too weak) if ML is set, 3 (too strong) if MH is set and
ML unset, and 2 (good) when neither is set — for every status byte value. -/
theorem getMagnetStrength_cases (d : Device) :
    ((getMagnetStrength d).1 = 0 ↔ (readOneByte d addr_status).1 &&& 0x20 = 0) ∧
    ((detectMagnet d).1 = 0 ↔ (readOneByte d addr_status).1 &&& 0x20 = 0) ∧
    ((readOneByte d addr_status).1 &&& 0x20 ≠ 0 → (readOneByte d addr_status).1 &&& 0x10 ≠ 0 →
        (getMagnetStrength d).1 = 1) ∧
    ((readOneByte d addr_status).1 &&& 0x20 ≠ 0 → (readOneByte d addr_status).1 &&& 0x10 = 0 →
        (readOneByte d addr_status).1 &&& 0x08 ≠ 0 → (getMagnetStrength d).1 = 3) ∧
    ((readOneByte d addr_status).1 &&& 0x20 ≠ 0 → (readOneByte d addr_status).1 &&& 0x10 = 0 →
        (readOneByte d addr_status).1 &&& 0x08 = 0 → (getMagnetStrength d).1 = 2) := by
  by_cases h5 : (readOneByte d addr_status).1 &&& 0x20 = 0 <;>
  by_cases h4 : (readOneByte d addr_status).1 &&& 0x10 = 0 <;>
  by_cases h3 : (readOneByte d addr_status).1 &&& 0x08 = 0 <;>
  simp [getMagnetStrength, detectMagnet, readOneByte, h5, h4, h3] at * <;>
  simp_all

/-- C4 witness: status byte 0b00110000 (MD and ML set) gives strength 1. -/
theorem getMagnetStrength_cases_witness : (getMagnetStrength devStatus30).1 = 1 :=
  (getMagnetStrength_cases devStatus30).2.2.1 (by decide) (by decide)

/-- C5 counterexample: setConf issues no read transaction at all — its bus
log on a concrete device and value is exactly two writes and two delays, so
it does not read the register pair back and returns nothing, refuting the
claim that every two-register set operation reads back and returns the
committed value. -/
theorem setConf_performs_no_readback :
    rdEvents (setConf devFlat 0x1234).log = [] ∧
    (setConf devFlat 0x1234).log =
      [Ev.wr addr_conf 0x12, Ev.delayMs 2, Ev.wr (addr_conf + 1) 0x34, Ev.delayMs 2] := by
  decide

/-- C5 (amended): setMaxAngle, setStartPosition and setEndPosition write the
high byte first, then the low byte, with a settle delay after each byte
write, then read the register pair back and return the committed value;
setConf writes high byte, delay, low byte, delay in the same order but
performs no read-back and returns no value. -/
theorem set_pair_protocol (d : Device) (v : Nat) (hv : v ≠ 0xFFFF) :
    ((setMaxAngle d v).2.log = d.log ++ setPairTrace addr_mang v ∧
        (setMaxAngle d v).1 = (highByte v <<< 8) ||| lowByte v) ∧
    ((setStartPosition d v).2.log = d.log ++ setPairTrace addr_zpos v ∧
        (setStartPosition d v).1 = (highByte v <<< 8) ||| lowByte v) ∧
    ((setEndPosition d v).2.log = d.log ++ setPairTrace addr_mpos v ∧
        (setEndPosition d v).1 = (highByte v <<< 8) ||| lowByte v) ∧
    ((setConf d v).log = d.log ++
        [Ev.wr addr_conf (highByte v), Ev.delayMs 2,
         Ev.wr (addr_conf + 1) (lowByte v), Ev.delayMs 2] ∧
     rdEvents (setConf d v).log = rdEvents d.log) :=
  ⟨setMaxAngle_trace d v hv, setStartPosition_trace d v hv, setEndPosition_trace d v hv,
   setConf_trace d v, by rw [setConf_trace d v]; simp [rdEvents_append, rdEvents]⟩

/-- C5 witness: the setMaxAngle conjunct at the concrete value 0x0123 on the
all-zero device. -/
theorem set_pair_protocol_witness :
    (setMaxAngle devFlat 0x0123).2.log = devFlat.log ++ setPairTrace addr_mang 0x0123 ∧
    (setMaxAngle devFlat 0x0123).1 = (highByte 0x0123 <<< 8) ||| lowByte 0x0123 :=
  (set_pair_protocol devFlat 0x0123 (by decide)).1

/-- C6: the two-byte atomic read composes its result as high byte shifted
left by 8, or-ed with the low byte, the first byte received being the high
byte: for bytes hi and lo the composed value is 256 * hi + lo, and on the
concrete raw-angle bytes 0x0A then 0x3C getRawAngle returns 0x0A3C (2620). -/
theorem getRawAngle_compose :
    (∀ (d : Device) (hi lo : Nat), hi < 256 → lo < 256 →
        d.regs addr_raw_angle = hi → d.regs (addr_raw_angle + 1) = lo →
        (getRawAngle d).1 = 256 * hi + lo) ∧
    (getRawAngle devRaw0A3C).1 = 0x0A3C := by
  constructor
  · intro d hi lo hhi hlo h1 h2
    simp only [getRawAngle, readTwoBytesTogether, h1, h2]
    rw [Nat.mod_eq_of_lt hhi, Nat.mod_eq_of_lt hlo]
    exact byte_concat hi lo hlo
  · decide

/-- C6 witness: the general composition conjunct applied to the concrete
device holding 0x0A and 0x3C. -/
theorem getRawAngle_compose_witness : (getRawAngle devRaw0A3C).1 = 256 * 0x0A + 0x3C :=
  getRawAngle_compose.1 devRaw0A3C 0x0A 0x3C (by decide) (by decide) (by decide) (by decide)

/-- C7: when the register pair does not change between bus transactions, the
atomic two-byte read and the separate two-byte read return the same composed
value; in the one-snapshot device model the two paths agree definitionally. -/
theorem together_eq_separately_stable :
    (∀ (tr : Nat → Nat → Nat) (a : Nat),
        (∀ t₁ t₂, tr t₁ a = tr t₂ a) → (∀ t₁ t₂, tr t₁ (a + 1) = tr t₂ (a + 1)) →
        ∀ t, readTwoBytesTogetherAt tr t a = readTwoBytesSeparatelyAt tr t a) ∧
    (∀ (d : Device) (a : Nat),
        (readTwoBytesTogether d a).1 = (readTwoBytesSeparately d a).1) := by
  constructor
  · intro tr a h1 h2 t
    simp only [readTwoBytesTogetherAt, readTwoBytesSeparatelyAt, readOneByteAt]
    rw [h2 (t + 1) t]
  · intro d a
    rfl

/-- C7 witness: the stability conjunct applied to a constant trace. -/
theorem together_eq_separately_stable_witness :
    readTwoBytesTogetherAt (fun _ _ => 7) 0 3 = readTwoBytesSeparatelyAt (fun _ _ => 7) 0 3 :=
  together_eq_separately_stable.1 (fun _ _ => 7) 3 (fun _ _ => rfl) (fun _ _ => rfl) 0

/-- C8: setOutPut writes back exactly one byte, to the config low byte
register, whose value is the prior low byte masked with 0b11001111 and with
bits 5:4 set to 10 for mode 0, to 01 for mode 2, and left 00 for any other
mode; every bit of the prior byte other than bits 5:4 is preserved; the
config high byte is not written; and the concrete scenario: prior low byte
0b00101111 with mode 0 writes back 0b00101111. -/
theorem setOutPut_bits (d : Device) (mode : Nat) :
    (wrEvents (setOutPut d mode).log = wrEvents d.log ++
        [(addr_conf + 1, outModeByte (readOneByte d (addr_conf + 1)).1 mode)]) ∧
    (∀ av ∈ wrEvents (setOutPut d mode).log, av ∈ wrEvents d.log ∨ av.1 = addr_conf + 1) ∧
    (mode = 0 → ∀ l : Nat,
        (outModeByte l mode).testBit 5 = true ∧ (outModeByte l mode).testBit 4 = false) ∧
    (mode = 2 → ∀ l : Nat,
        (outModeByte l mode).testBit 5 = false ∧ (outModeByte l mode).testBit 4 = true) ∧
    (mode ≠ 0 → mode ≠ 2 → ∀ l : Nat,
        (outModeByte l mode).testBit 5 = false ∧ (outModeByte l mode).testBit 4 = false) ∧
    (∀ l i : Nat, l < 256 → i ≠ 4 → i ≠ 5 → (outModeByte l mode).testBit i = l.testBit i) ∧
    ((setOutPut devConf2F 0).log =
        [Ev.rd (addr_conf + 1) 0b00101111, Ev.wr (addr_conf + 1) 0b00101111]) := by
  have h1 : wrEvents (setOutPut d mode).log = wrEvents d.log ++
      [(addr_conf + 1, outModeByte (readOneByte d (addr_conf + 1)).1 mode)] := by
    simp only [setOutPut, readOneByte, writeOneByte]
    have hb : (if mode = 0 then d.regs (addr_conf + 1) % 256 &&& 0b11001111 ||| 0b100000
               else if mode = 2 then d.regs (addr_conf + 1) % 256 &&& 0b11001111 ||| 0b010000
               else d.regs (addr_conf + 1) % 256 &&& 0b11001111) =
        outModeByte (d.regs (addr_conf + 1) % 256) mode := by
      by_cases m0 : mode = 0
      · simp [outModeByte, m0]
      · by_cases m2 : mode = 2 <;> simp [outModeByte, m0, m2]
    rw [hb, Nat.mod_eq_of_lt (outModeByte_lt _ _)]
    simp [wrEvents_append, wrEvents, readOneByte]
  refine ⟨h1, ?_, ?_, ?_, ?_, ?_, ?_⟩
  · intro av hav
    rw [h1] at hav
    rcases List.mem_append.mp hav with h | h
    · exact Or.inl h
    · simp at h
      subst h
      exact Or.inr rfl
  · intro h0 l
    subst h0
    constructor <;>
      simp [outModeByte, Nat.testBit_or, Nat.testBit_and,
        (show Nat.testBit 207 5 = false by decide), (show Nat.testBit 207 4 = false by decide),
        (show Nat.testBit 32 5 = true by decide), (show Nat.testBit 32 4 = false by decide)]
  · intro h2 l
    subst h2
    constructor <;>
      simp [outModeByte, Nat.testBit_or, Nat.testBit_and,
        (show Nat.testBit 207 5 = false by decide), (show Nat.testBit 207 4 = false by decide),
        (show Nat.testBit 16 5 = false by decide), (show Nat.testBit 16 4 = true by decide)]
  · intro hm0 hm2 l
    constructor <;>
      simp [outModeByte, hm0, hm2, Nat.testBit_or, Nat.testBit_and,
        (show Nat.testBit 207 5 = false by decide), (show Nat.testBit 207 4 = false by decide)]
  · intro l i hl h4 h5
    by_cases h8 : i < 8
    · have key : ∀ l, l < 256 → ∀ i, i < 8 → i ≠ 4 → i ≠ 5 →
          ∀ mk ∈ ([32, 16, 0] : List Nat),
          ((l &&& 207) ||| mk).testBit i = l.testBit i := by decide
      by_cases m0 : mode = 0
      · simpa [outModeByte, m0] using key l hl i h8 h4 h5 32 (by decide)
      · by_cases m2 : mode = 2
        · simpa [outModeByte, m0, m2] using key l hl i h8 h4 h5 16 (by decide)
        · simpa [outModeByte, m0, m2] using key l hl i h8 h4 h5 0 (by decide)
    · have hge : 8 ≤ i := Nat.not_lt.mp h8
      have hpow : (256 : ℕ) ≤ 2 ^ i := by
        calc (256 : ℕ) = 2 ^ 8 := by norm_num
        _ ≤ 2 ^ i := Nat.pow_le_pow_right (by norm_num) hge
      have hl2 : l < 2 ^ i := lt_of_lt_of_le hl hpow
      have hm2 : outModeByte l mode < 2 ^ i := lt_of_lt_of_le (outModeByte_lt l mode) hpow
      rw [Nat.testBit_lt_two_pow hl2, Nat.testBit_lt_two_pow hm2]
  · decide

/-- C8 witness: the mode 0 bit pattern of the written byte at the concrete
prior low byte 0b00101111. -/
theorem setOutPut_bits_witness :
    (outModeByte 0b00101111 0).testBit 5 = true ∧ (outModeByte 0b00101111 0).testBit 4 = false :=
  (setOutPut_bits devFlat 0).2.2.1 rfl 0b00101111

/-- C9: for every 16-bit input other than the sentinel 0xFFFF, the three
position setters write the two bytes of the input to the target register
pair and return it; exactly the input 0xFFFF causes the current raw angle to
be captured and written instead, so when the raw angle is a 12-bit value the
value 0xFFFF itself is never written and never returned, while every 16-bit
non-sentinel value (in particular every 12-bit value) is written verbatim. -/
theorem set_sentinel_behavior :
    (∀ (d : Device) (v : Nat), v ≠ 0xFFFF →
        wrEvents (setMaxAngle d v).2.log =
          wrEvents d.log ++ [(addr_mang, highByte v), (addr_mang + 1, lowByte v)] ∧
        (v < 65536 → (setMaxAngle d v).1 = v)) ∧
    (∀ d : Device,
        wrEvents (setMaxAngle d 0xFFFF).2.log =
          wrEvents d.log ++ [(addr_mang, highByte (getRawAngle d).1),
                             (addr_mang + 1, lowByte (getRawAngle d).1)] ∧
        ((getRawAngle d).1 < 0x1000 →
          (setMaxAngle d 0xFFFF).1 = (getRawAngle d).1 ∧ (setMaxAngle d 0xFFFF).1 ≠ 0xFFFF)) ∧
    (∀ (d : Device) (v : Nat), v ≠ 0xFFFF →
        wrEvents (setStartPosition d v).2.log =
          wrEvents d.log ++ [(addr_zpos, highByte v), (addr_zpos + 1, lowByte v)] ∧
        (v < 65536 → (setStartPosition d v).1 = v)) ∧
    (∀ d : Device,
        wrEvents (setStartPosition d 0xFFFF).2.log =
          wrEvents d.log ++ [(addr_zpos, highByte (getRawAngle d).1),
                             (addr_zpos + 1, lowByte (getRawAngle d).1)] ∧
        ((getRawAngle d).1 < 0x1000 →
          (setStartPosition d 0xFFFF).1 = (getRawAngle d).1 ∧
          (setStartPosition d 0xFFFF).1 ≠ 0xFFFF)) ∧
    (∀ (d : Device) (v : Nat), v ≠ 0xFFFF →
        wrEvents (setEndPosition d v).2.log =
          wrEvents d.log ++ [(addr_mpos, highByte v), (addr_mpos + 1, lowByte v)] ∧
        (v < 65536 → (setEndPosition d v).1 = v)) ∧
    (∀ d : Device,
        wrEvents (setEndPosition d 0xFFFF).2.log =
          wrEvents d.log ++ [(addr_mpos, highByte (getRawAngle d).1),
                             (addr_mpos + 1, lowByte (getRawAngle d).1)] ∧
        ((getRawAngle d).1 < 0x1000 →
          (setEndPosition d 0xFFFF).1 = (getRawAngle d).1 ∧
          (setEndPosition d 0xFFFF).1 ≠ 0xFFFF)) := by
  refine ⟨?_, ?_, ?_, ?_, ?_, ?_⟩
  · intro d v hv
    refine ⟨?_, ?_⟩
    · rw [(setMaxAngle_trace d v hv).1]
      simp [wrEvents_append, wrEvents_setPairTrace]
    · intro h16
      rw [(setMaxAngle_trace d v hv).2]
      exact highlow_concat v h16
  · intro d
    refine ⟨?_, ?_⟩
    · rw [(setMaxAngle_sentinel_trace d).1]
      simp [wrEvents_append, wrEvents_setPairTrace, wrEvents]
    · intro h12
      have h16 : (getRawAngle d).1 < 65536 := by omega
      rw [(setMaxAngle_sentinel_trace d).2, highlow_concat _ h16]
      exact ⟨rfl, by omega⟩
  · intro d v hv
    refine ⟨?_, ?_⟩
    · rw [(setStartPosition_trace d v hv).1]
      simp [wrEvents_append, wrEvents_setPairTrace]
    · intro h16
      rw [(setStartPosition_trace d v hv).2]
      exact highlow_concat v h16
  · intro d
    refine ⟨?_, ?_⟩
    · rw [(setStartPosition_sentinel_trace d).1]
      simp [wrEvents_append, wrEvents_setPairTrace, wrEvents]
    · intro h12
      have h16 : (getRawAngle d).1 < 65536 := by omega
      rw [(setStartPosition_sentinel_trace d).2, highlow_concat _ h16]
      exact ⟨rfl, by omega⟩
  · intro d v hv
    refine ⟨?_, ?_⟩
    · rw [(setEndPosition_trace d v hv).1]
      simp [wrEvents_append, wrEvents_setPairTrace]
    · intro h16
      rw [(setEndPosition_trace d v hv).2]
      exact highlow_concat v h16
  · intro d
    refine ⟨?_, ?_⟩
    · rw [(setEndPosition_sentinel_trace d).1]
      simp [wrEvents_append, wrEvents_setPairTrace, wrEvents]
    · intro h12
      have h16 : (getRawAngle d).1 < 65536 := by omega
      rw [(setEndPosition_sentinel_trace d).2, highlow_concat _ h16]
      exact ⟨rfl, by omega⟩

/-- C9 witness: the non-sentinel setMaxAngle conjunct at the 12-bit value
0x0ABC on the all-zero device. -/
theorem set_sentinel_behavior_witness :
    wrEvents (setMaxAngle devFlat 0x0ABC).2.log =
      wrEvents devFlat.log ++ [(addr_mang, highByte 0x0ABC), (addr_mang + 1, lowByte 0x0ABC)] ∧
    (0x0ABC < 65536 → (setMaxAngle devFlat 0x0ABC).1 = 0x0ABC) :=
  set_sentinel_behavior.1 devFlat 0x0ABC (by decide)

/-- C10: burnMaxAngleAndConfig performs no magnet check: when the burn count
is 0 and the max angle is at or above the 18-degree threshold, it returns 1
and writes the config-burn byte 0x40 even on a device where detectMagnet
returns 0. -/
theorem burnMaxAngleAndConfig_ignores_magnet (d : Device)
    (hmd : (detectMagnet d).1 = 0) (h0 : (getBurnCount d).1 = 0)
    (hma : 18000 ≤ (getMaxAngle d).1 * 87) :
    (burnMaxAngleAndConfig d).1 = 1 ∧
    wrEvents (burnMaxAngleAndConfig d).2.log = wrEvents d.log ++ [(addr_burn, 0x40)] := by
  have h2 : ¬ ((getMaxAngle d).1 * 87 < 18000) := Nat.not_lt.mpr hma
  simp only [getBurnCount, getMaxAngle, readOneByte, readTwoBytesSeparately] at h0 h2
  simp [burnMaxAngleAndConfig, getBurnCount, getMaxAngle, readOneByte, readTwoBytesSeparately,
    writeOneByte, wrEvents_append, wrEvents, h0, h2]

/-- C10 witness: devMang207 has no magnet detected, burn count 0 and max
angle 207, and the config burn still goes through. -/
theorem burnMaxAngleAndConfig_ignores_magnet_witness :
    (burnMaxAngleAndConfig devMang207).1 = 1 ∧
    wrEvents (burnMaxAngleAndConfig devMang207).2.log =
      wrEvents devMang207.log ++ [(addr_burn, 0x40)] :=
  burnMaxAngleAndConfig_ignores_magnet devMang207 (by decide) (by decide) (by decide)

end AS5600
